import Mathlib

/-!
Shallow embedding of `src/backend/app/main.py` (news-aggregator backend).

Conventions used throughout:
* Python strings are Lean `String`s; `len` is `String.length` (both count
  Unicode code points), `str.strip()` is `String.trim`, `str.lower()` is
  `String.toLower` (the texts in play are ASCII), `str.split()` is `pySplit`
  (split on whitespace, discarding empty pieces).
* Python floats are modelled exactly over `ℚ`; `round(x, d)` is `roundTo d`
  (round half to even, Python's rounding mode).
* Calls into the external NLTK / TextBlob libraries (sentence tokenizer,
  word tokenizer, sentiment model, noun-phrase extractor) are parameters,
  collected in the `NLP` structure; a result of `none` models the call
  raising an exception.
* Fallible code paths follow the source's `try/except` structure explicitly.
-/

/-- Python `text.split()`: split on runs of whitespace, no empty tokens. -/
def pySplit (s : String) : List String :=
  (s.split Char.isWhitespace).filter (fun w => w ≠ "")

/-- Python `lst.index(x)`: index of the first occurrence of `x` in `lst`
(only ever used on members, so the out-of-range value is irrelevant). -/
def pyIndex (l : List String) (s : String) : Nat :=
  match l with
  | [] => 0
  | x :: xs => if x = s then 0 else pyIndex xs s + 1

/-- Auxiliary scan for `pyCount`: number of non-overlapping occurrences of
the non-empty pattern `pat` in the character list, scanning left to right
and skipping past each match, exactly as CPython's `str.count` does. -/
def countSub (pat : List Char) : List Char → Nat
  | [] => 0
  | c :: rest =>
    if pat.isPrefixOf (c :: rest) then
      countSub pat (List.drop (pat.length - 1) rest) + 1
    else
      countSub pat rest
termination_by l => l.length
decreasing_by
  · simp only [List.length_drop, List.length_cons]
    omega
  · simp only [List.length_cons]
    omega

/-- Python `s.count(sub)`: non-overlapping substring occurrence count
(`s.count("")` is `len(s) + 1` in Python). -/
def pyCount (s sub : String) : Nat :=
  if sub = "" then s.length + 1 else countSub sub.data s.data

/-- Round a rational to the nearest integer, halves to the even neighbour
(Python's `round`). -/
def roundHalfEven (q : ℚ) : ℤ :=
  if q - ⌊q⌋ < 1/2 then ⌊q⌋
  else if 1/2 < q - ⌊q⌋ then ⌊q⌋ + 1
  else if 2 ∣ ⌊q⌋ then ⌊q⌋ else ⌊q⌋ + 1

/-- Python `round(q, d)`: round to `d` decimal places, halves to even. -/
def roundTo (d : ℕ) (q : ℚ) : ℚ :=
  (roundHalfEven (q * 10 ^ d) : ℚ) / 10 ^ d

/-- The external NLP primitives the backend calls (NLTK's `sent_tokenize`,
TextBlob's word tokenizer, sentiment model and noun-phrase extractor).
They live in third-party libraries, not in this repository, so they are
parameters of the embedding; `none` models the call raising an exception. -/
structure NLP where
  sentTokenize : String → Option (List String)
  blobWords : String → Option (List String)
  blobSentiment : String → Option (ℚ × ℚ)
  nounPhrases : String → Option (List String)

/-- Result type of `analyze_sentiment` (dict with keys polarity, subjectivity). -/
structure Sentiment where
  polarity : ℚ
  subjectivity : ℚ
deriving DecidableEq, Repr

/-- `analyze_sentiment` (main.py:100-113): round TextBlob's polarity and
subjectivity to 2 decimals; on any exception return the neutral fallback
`{polarity: 0.0, subjectivity: 0.5}`. -/
def analyze_sentiment (nlp : NLP) (text : String) : Sentiment :=
  match nlp.blobSentiment text with
  | some (p, s) => ⟨roundTo 2 p, roundTo 2 s⟩
  | none => ⟨0, 1/2⟩

/-- `analyze_content_type` (main.py:115-126): subjectivity above 0.6 is
opinion/editorial, otherwise factual; exception gives "unknown". -/
def analyze_content_type (nlp : NLP) (text : String) : String :=
  match nlp.blobSentiment text with
  | some (_, s) => if 3/5 < s then "opinion/editorial" else "factual"
  | none => "unknown"

/-- Result type of `calculate_readability_score`. -/
structure Readability where
  score : ℚ
  reading_level : String
  avg_sentence_length : ℚ
deriving DecidableEq, Repr

/-- The fixed default readability result used for degenerate input and on
any exception (main.py:133-137 and three later copies). -/
def defaultReadability : Readability :=
  ⟨60, "standard", 20⟩

/-- `count_syllables` (main.py:156-160): length of the first TextBlob word
split on "-"; any failure (exception, or no words) counts as 1 syllable. -/
def count_syllables (nlp : NLP) (word : String) : Nat :=
  match nlp.blobWords word with
  | some (w :: _) => (w.splitOn "-").length
  | _ => 1

/-- `calculate_readability_score` (main.py:128-189): fixed default for
empty text, trimmed length below 10, zero sentences or zero words (and on
tokenizer exception, which the outer `except` turns into the same default);
otherwise the Flesch formula on words-per-sentence and syllables-per-word,
clamped to [0, 100], with the score and the average sentence length rounded
to one decimal place. -/
def calculate_readability_score (nlp : NLP) (text : String) : Readability :=
  if text = "" ∨ text.trim.length < 10 then defaultReadability
  else
    match nlp.sentTokenize text with
    | none => defaultReadability
    | some sentences =>
      if sentences = [] then defaultReadability
      else
        let words := (pySplit text).filter (fun w => w.trim ≠ "")
        if words = [] then defaultReadability
        else
          let syllable_count : ℕ := (words.map (fun w => count_syllables nlp w)).sum
          let words_per_sentence : ℚ := (words.length : ℚ) / (sentences.length : ℚ)
          let syllables_per_word : ℚ := (syllable_count : ℚ) / (words.length : ℚ)
          let flesch_score : ℚ :=
            206835/1000 - 1015/1000 * words_per_sentence - 846/10 * syllables_per_word
          let clamped : ℚ := max 0 (min 100 flesch_score)
          let reading_level :=
            if 80 < clamped then "easy"
            else if 60 < clamped then "standard"
            else "advanced"
          ⟨roundTo 1 clamped, reading_level, roundTo 1 words_per_sentence⟩

/-- The 'emotional' bias indicator list (main.py:199). -/
def emotionalWords : List String :=
  ["must", "never", "always", "clearly", "obviously"]

/-- The 'loaded_words' bias indicator list (main.py:200). -/
def loadedWords : List String :=
  ["radical", "extremist", "fanatic", "fundamental"]

/-- The 'generalizations' bias indicator list (main.py:201). -/
def generalizationWords : List String :=
  ["all", "every", "none", "never", "always"]

/-- Result type of `detect_bias` (the factors dict is kept as an ordered
association list; the empty list is the failure branch's `{}`). -/
structure BiasResult where
  bias_level : String
  bias_score : ℚ
  bias_factors : List (String × Nat)
deriving DecidableEq, Repr

/-- `detect_bias` (main.py:191-228): per category, count the lowercased
whitespace-split words that are members of the category's list; the total
adds five times the TextBlob subjectivity; level thresholds 10 and 5; the
reported score is rounded to one decimal.  On exception (the TextBlob
call), the fixed unknown/0/{} fallback. -/
def detect_bias (nlp : NLP) (text : String) : BiasResult :=
  match nlp.blobSentiment text with
  | none => ⟨"unknown", 0, []⟩
  | some (_, subjectivity) =>
    let words := pySplit text.toLower
    let e := (words.filter (fun w => w ∈ emotionalWords)).length
    let l := (words.filter (fun w => w ∈ loadedWords)).length
    let g := (words.filter (fun w => w ∈ generalizationWords)).length
    let total_bias : ℚ := ((e + l + g : ℕ) : ℚ) + subjectivity * 5
    let bias_level :=
      if 10 < total_bias then "high"
      else if 5 < total_bias then "medium"
      else "low"
    ⟨bias_level, roundTo 1 total_bias,
      [("emotional", e), ("loaded_words", l), ("generalizations", g)]⟩

/-- The quotation-mark test of main.py:238.  The source line tests the same
ASCII double-quote character three times
(`'"' in sentence or '"' in sentence or '"' in sentence`, all three
literals being byte 0x22); no other quote character is tested. -/
def hasQuoteChar (s : String) : Bool :=
  s.contains '"' || s.contains '"' || s.contains '"'

/-- `extract_key_quotes` (main.py:230-246): walk the tokenized sentences in
order, appending each trimmed sentence that contains a quotation mark while
fewer than `max_quotes` have been collected; tokenizer exception gives the
empty list. -/
def extract_key_quotes (nlp : NLP) (text : String) (max_quotes : Nat := 2) : List String :=
  match nlp.sentTokenize text with
  | none => []
  | some sentences =>
    sentences.foldl
      (fun quotes sentence =>
        if hasQuoteChar sentence ∧ quotes.length < max_quotes then
          quotes ++ [sentence.trim]
        else quotes)
      []

/-- The fixed stop-word set of `extract_keywords` (main.py:260-273). -/
def stop_words : List String :=
  ["the", "be", "to", "of", "and", "a", "in", "that", "have", "i",
   "it", "for", "not", "on", "with", "he", "as", "you", "do", "at",
   "this", "but", "his", "by", "from", "they", "we", "say", "her",
   "she", "or", "an", "will", "my", "one", "all", "would", "there",
   "their", "what", "so", "up", "out", "if", "about", "who", "get",
   "which", "go", "me", "when", "make", "can", "like", "time", "no",
   "just", "him", "know", "take", "people", "into", "year", "your",
   "good", "some", "could", "them", "see", "other", "than", "then",
   "now", "look", "only", "come", "its", "over", "think", "also",
   "back", "after", "use", "two", "how", "our", "work", "first",
   "well", "way", "even", "new", "want", "because", "any", "these",
   "give", "day", "most", "us"]

/-- Python `collections.Counter` built from a list: distinct elements in
first-encounter order, each with its multiplicity. -/
def counterList (ws : List String) : List (String × Nat) :=
  ws.foldl
    (fun acc w =>
      if acc.any (fun p => p.1 = w) then
        acc.map (fun p => if p.1 = w then (p.1, p.2 + 1) else p)
      else acc ++ [(w, 1)])
    []

/-- Python `Counter(ws).most_common(n)`: pairs sorted by count descending,
ties kept in first-encounter order (a stable descending sort), first `n`. -/
def mostCommon (n : Nat) (ws : List String) : List (String × Nat) :=
  (List.insertionSort (fun a b : String × Nat => b.2 ≤ a.2) (counterList ws)).take n

/-- Python `word.isalnum()`: non-empty and all characters alphanumeric
(modelled for the ASCII range). -/
def pyIsAlnum (w : String) : Bool :=
  w ≠ "" && w.data.all Char.isAlphanum

/-- `extract_keywords` (main.py:248-284): TextBlob noun phrases ranked by
frequency when that call succeeds with a non-empty result; otherwise the
fallback ranks the lowercased whitespace-split tokens that are not stop
words, have length above 3 and are alphanumeric. -/
def extract_keywords (nlp : NLP) (text : String) (n : Nat := 5) : List String :=
  match nlp.nounPhrases text with
  | some (w :: ws) => (mostCommon n (w :: ws)).map Prod.fst
  | _ =>
    let words := (pySplit text).filterMap
      (fun word =>
        if word.toLower ∉ stop_words ∧ 3 < word.length ∧ pyIsAlnum word then
          some word.toLower
        else none)
    (mostCommon n words).map Prod.fst

/-- The per-sentence score of `generate_ai_summary` (main.py:297-306):
`1/(position+1)` plus a bonus of 0.3 for sentences of 10 to 25 words. -/
def sentenceScore (i : Nat) (sentence : String) : ℚ :=
  1 / ((i : ℚ) + 1) +
    (if 10 ≤ (pySplit sentence).length ∧ (pySplit sentence).length ≤ 25 then 3/10 else 0)

/-- The selection step of `generate_ai_summary` on an already-tokenized
sentence list: score each sentence, stable-sort by score descending, keep
the first `max_sentences`, then stable-sort those by
`sentences.index(sentence)` ascending (the first-occurrence index). -/
def summarySelect (sentences : List String) (max_sentences : Nat) : List (ℚ × String) :=
  let scored := sentences.enum.map (fun p => (sentenceScore p.1 p.2, p.2))
  let top := (List.insertionSort (fun a b : ℚ × String => b.1 ≤ a.1) scored).take max_sentences
  List.insertionSort
    (fun a b : ℚ × String => pyIndex sentences a.2 ≤ pyIndex sentences b.2) top

/-- `generate_ai_summary` (main.py:286-315): the text itself when it has at
most `max_sentences` sentences (or on tokenizer exception, caught by the
outer `except`); otherwise the selected sentences joined by single spaces. -/
def generate_ai_summary (nlp : NLP) (text : String) (max_sentences : Nat := 3) : String :=
  match nlp.sentTokenize text with
  | none => text
  | some sentences =>
    if sentences.length ≤ max_sentences then text
    else
      String.intercalate " " ((summarySelect sentences max_sentences).map Prod.snd)

/-- A JSON string field of a raw upstream article: the key can be absent,
present with value `null`, or present with a string value.  (Fields holding
values of other JSON types are outside this model.) -/
inductive StrField where
  | absent
  | null
  | str (s : String)
deriving DecidableEq, Repr

/-- Python truthiness of `article.get(key)` for a `StrField`: absent and
`null` give `None`, so only a non-empty string is truthy. -/
def StrField.truthy : StrField → Bool
  | .str s => s ≠ ""
  | _ => false

/-- Python `article.get(key, "")` for a `StrField` (the `null` arm is the
`None` value; its uses below make the `.strip()` exception explicit). -/
def StrField.getD (f : StrField) (d : String) : String :=
  match f with
  | .str s => s
  | _ => d

/-- The `source` field of a raw article: absent (`{}` default), a non-dict
JSON value (on which `.get("name", ...)` raises `AttributeError`), or a
dict with an optional `name` string. -/
inductive SrcField where
  | absent
  | nonDict
  | dict (name : Option String)
deriving DecidableEq, Repr

/-- One raw article of the upstream JSON response, restricted to the fields
`fetch_news` reads. -/
structure RawArticle where
  title : StrField
  url : StrField
  description : StrField
  source : SrcField
  publishedAt : StrField
  urlToImage : Option String
deriving DecidableEq, Repr

/-- A produced news item (main.py:76-90), its analysis fields inlined. -/
structure NewsItem where
  title : String
  url : String
  source : String
  timestamp : String
  summary : String
  category : String
  urlToImage : Option String
  sentiment : Sentiment
  ai_summary : String
  keywords : List String
  content_type : String
  readability : Readability
  bias_analysis : BiasResult
  key_quotes : List String
deriving DecidableEq, Repr

/-- A trending-topic entry (main.py:72-74). -/
structure TopicCount where
  topic : String
  count : Nat
deriving DecidableEq, Repr

/-- The response of `fetch_news` (main.py:92-98). -/
structure NewsResponse where
  articles : List NewsItem
  total : Nat
  category : String
  trending_topics : List TopicCount
deriving DecidableEq, Repr

/-- The parsed upstream JSON body: the raw article list and the optional
`totalResults` count. -/
structure UpstreamData where
  articles : List RawArticle
  totalResults : Option Nat
deriving DecidableEq, Repr

/-- The combined analysis text of a raw article
(main.py:351-353: `f"{title} {description}".strip()` over the trimmed
title and trimmed description; absent fields read as `""`). -/
def fullTextOf (a : RawArticle) : String :=
  ((a.title.getD "").trim ++ " " ++ (a.description.getD "").trim).trim

/-- One iteration of the per-article loop of `fetch_news` (main.py:343-395)
for the article `a`: the first component is the text appended to `all_text`
(appended before the remaining processing runs), the second the produced
`NewsItem`.  The loop's `try/except` is explicit: a `null` description
makes `.strip()` raise before the text is pooled; a non-dict `source` or a
`null` `publishedAt` raises after the text is pooled, so the article is
skipped but its text stays in the pool.  `now` stands for
`datetime.now().isoformat()`. -/
def articleStep (nlp : NLP) (category now : String) (a : RawArticle) :
    Option String × Option NewsItem :=
  if ¬ a.title.truthy ∨ ¬ a.url.truthy then (none, none)
  else if a.description = .null then (none, none)
  else
    let title := (a.title.getD "").trim
    let description := (a.description.getD "").trim
    let full_text := (title ++ " " ++ description).trim
    if full_text.length < 10 then (none, none)
    else if a.source = .nonDict ∨ a.publishedAt = .null then (some full_text, none)
    else
      (some full_text, some
        { title := title
          url := a.url.getD ""
          source := match a.source with
            | .dict (some n) => n
            | _ => "Unknown Source"
          timestamp := a.publishedAt.getD now
          summary := description
          category := category
          urlToImage := a.urlToImage
          sentiment := analyze_sentiment nlp full_text
          ai_summary := generate_ai_summary nlp (if description = "" then title else description)
          keywords := extract_keywords nlp full_text
          content_type := analyze_content_type nlp full_text
          readability := calculate_readability_score nlp full_text
          bias_analysis := detect_bias nlp full_text
          key_quotes := extract_key_quotes nlp (if description = "" then title else description) })

/-- The pooled `all_text` accumulated by the loop of `fetch_news`
(main.py:340, 360), starting from `""` and appending `" " + full_text`. -/
def allTextOf (nlp : NLP) (category now : String) (raws : List RawArticle) : String :=
  raws.foldl
    (fun acc a =>
      match (articleStep nlp category now a).1 with
      | some t => acc ++ " " ++ t
      | none => acc)
    ""

/-- The `news_items` list accumulated by the loop of `fetch_news`. -/
def newsItemsOf (nlp : NLP) (category now : String) (raws : List RawArticle) : List NewsItem :=
  raws.filterMap (fun a => (articleStep nlp category now a).2)

/-- The body of the per-article loop of `fetch_news` as one accumulator
step: extend the pooled text and the item list with whatever `articleStep`
produced for the article `a`. -/
def loopStep (nlp : NLP) (category now : String) (acc : String × List NewsItem)
    (a : RawArticle) : String × List NewsItem :=
  let s := articleStep nlp category now a
  (match s.1 with
   | some t => acc.1 ++ " " ++ t
   | none => acc.1,
   match s.2 with
   | some it => acc.2 ++ [it]
   | none => acc.2)

/-- `fetch_news` (main.py:317-423) after a successful upstream request, on
the parsed body `data`: run the per-article loop, return the fixed empty
response when no article survived, otherwise the items, the upstream
`totalResults` (defaulting to the surviving count), and the ten trending
keywords of the pooled text, each counted by
`all_text.lower().count(topic.lower())`. -/
def fetch_news (nlp : NLP) (category now : String) (data : UpstreamData) : NewsResponse :=
  let acc := data.articles.foldl (loopStep nlp category now) ("", [])
  let all_text := acc.1
  let news_items := acc.2
  if news_items = [] then
    ⟨[], 0, category, []⟩
  else
    let trending_topics := extract_keywords nlp all_text 10
    ⟨news_items,
     data.totalResults.getD news_items.length,
     category,
     trending_topics.map (fun topic => ⟨topic, pyCount all_text.toLower topic.toLower⟩)⟩

/-! ### Helper lemmas about rounding -/

/-- `roundHalfEven` never rounds below the floor. -/
theorem roundHalfEven_lower {a : ℤ} {q : ℚ} (ha : (a : ℚ) ≤ q) :
    a ≤ roundHalfEven q := by
  have hf : a ≤ ⌊q⌋ := Int.le_floor.mpr ha
  unfold roundHalfEven
  split
  · exact hf
  · split
    · omega
    · split <;> omega

/-- `roundHalfEven` never rounds above an integer upper bound. -/
theorem roundHalfEven_upper {b : ℤ} {q : ℚ} (hb : q ≤ (b : ℚ)) :
    roundHalfEven q ≤ b := by
  have hfb : ⌊q⌋ ≤ b := by
    have h := Int.floor_le_floor hb
    simpa using h
  unfold roundHalfEven
  split
  · exact hfb
  · rename_i h1
    push_neg at h1
    have hq : (⌊q⌋ : ℚ) < q := by
      have h2 : (0 : ℚ) < 1/2 := by norm_num
      linarith
    have hlt : ⌊q⌋ < b := by
      have : (⌊q⌋ : ℚ) < (b : ℚ) := lt_of_lt_of_le hq hb
      exact_mod_cast this
    split
    · omega
    · split <;> omega

/-- Rounding to `d` decimals keeps a value inside any integer bounds that
contain it. -/
theorem roundTo_bounds {a b : ℤ} (d : ℕ) {q : ℚ} (ha : (a : ℚ) ≤ q)
    (hb : q ≤ (b : ℚ)) :
    (a : ℚ) ≤ roundTo d q ∧ roundTo d q ≤ (b : ℚ) := by
  have hpow : (0 : ℚ) < 10 ^ d := by positivity
  have ha' : ((a * 10 ^ d : ℤ) : ℚ) ≤ q * 10 ^ d := by
    push_cast
    nlinarith
  have hb' : q * 10 ^ d ≤ ((b * 10 ^ d : ℤ) : ℚ) := by
    push_cast
    nlinarith
  have h1 := roundHalfEven_lower ha'
  have h2 := roundHalfEven_upper hb'
  unfold roundTo
  constructor
  · rw [le_div_iff₀ hpow]
    calc (a : ℚ) * 10 ^ d = ((a * 10 ^ d : ℤ) : ℚ) := by push_cast; ring
    _ ≤ (roundHalfEven (q * 10 ^ d) : ℚ) := by exact_mod_cast h1
  · rw [div_le_iff₀ hpow]
    calc (roundHalfEven (q * 10 ^ d) : ℚ) ≤ ((b * 10 ^ d : ℤ) : ℚ) := by exact_mod_cast h2
    _ = (b : ℚ) * 10 ^ d := by push_cast; ring

/-! ### Claim C6 -/

/-- C6: for every text, `analyze_sentiment` either returns the model's
polarity and subjectivity rounded to 2 decimals — inside [-1,1] and [0,1]
whenever the model's raw outputs are, which is the range TextBlob
documents — or, when the TextBlob call raises, exactly the fallback
{polarity: 0.0, subjectivity: 0.5}.  The function is total in the oracle's
outcome, so no exception propagates past it. -/
theorem analyze_sentiment_safe (nlp : NLP) (text : String) :
    (nlp.blobSentiment text = none → analyze_sentiment nlp text = ⟨0, 1/2⟩) ∧
    (∀ p s : ℚ, nlp.blobSentiment text = some (p, s) →
      -1 ≤ p → p ≤ 1 → 0 ≤ s → s ≤ 1 →
      analyze_sentiment nlp text = ⟨roundTo 2 p, roundTo 2 s⟩ ∧
      -1 ≤ (analyze_sentiment nlp text).polarity ∧
      (analyze_sentiment nlp text).polarity ≤ 1 ∧
      0 ≤ (analyze_sentiment nlp text).subjectivity ∧
      (analyze_sentiment nlp text).subjectivity ≤ 1) := by
  constructor
  · intro h
    simp [analyze_sentiment, h]
  · intro p s h hp1 hp2 hs1 hs2
    have heq : analyze_sentiment nlp text = ⟨roundTo 2 p, roundTo 2 s⟩ := by
      simp [analyze_sentiment, h]
    have hp := @roundTo_bounds (-1) 1 2 p (by exact_mod_cast hp1) (by exact_mod_cast hp2)
    have hs := @roundTo_bounds 0 1 2 s (by exact_mod_cast hs1) (by exact_mod_cast hs2)
    rw [heq]
    refine ⟨rfl, ?_, ?_, ?_, ?_⟩
    · exact_mod_cast hp.1
    · exact_mod_cast hp.2
    · exact_mod_cast hs.1
    · exact_mod_cast hs.2

/-- Concrete external-model instantiation used by the C6 witness: the
sentiment call returns polarity 1/3, subjectivity 3/7; everything else
raises. -/
def nlpSent : NLP :=
  ⟨fun _ => none, fun _ => none, fun _ => some (1/3, 3/7), fun _ => none⟩

/-- Witness for C6 at a concrete input: polarity 1/3 and subjectivity 3/7
round to 0.33 and 0.43, both inside the documented ranges. -/
theorem analyze_sentiment_safe_witness :
    analyze_sentiment nlpSent "Mixed feelings today" = ⟨33/100, 43/100⟩ ∧
    -1 ≤ (analyze_sentiment nlpSent "Mixed feelings today").polarity ∧
    (analyze_sentiment nlpSent "Mixed feelings today").subjectivity ≤ 1 := by
  have h := (analyze_sentiment_safe nlpSent "Mixed feelings today").2 (1/3) (3/7)
    rfl (by norm_num) (by norm_num) (by norm_num) (by norm_num)
  exact ⟨by with_unfolding_all rfl, h.2.1, h.2.2.2.2⟩

/-! ### Claims C7 and C10 -/

/-- The score `detect_bias` computes for one keyword category: the number
of lowercased whitespace-split tokens of the text that are members of the
category's list (exact token equality). -/
def biasCategoryScore (categoryList : List String) (text : String) : Nat :=
  ((pySplit text.toLower).filter (fun w => w ∈ categoryList)).length

/-- The overall bias score of `detect_bias` before rounding: the three
category scores plus five times the subjectivity `s`. -/
def totalBias (text : String) (s : ℚ) : ℚ :=
  ((biasCategoryScore emotionalWords text + biasCategoryScore loadedWords text
    + biasCategoryScore generalizationWords text : ℕ) : ℚ) + s * 5

/-- C7 (amended): with a working sentiment call, `detect_bias` reports the
three exact-token category counts, the level thresholds >10 / >5 applied to
the unrounded `total_bias`, and a `bias_score` equal to `total_bias`
rounded to one decimal place; when the sentiment call raises, exactly
{level: "unknown", score: 0.0, factors: {}}. -/
theorem detect_bias_spec (nlp : NLP) (text : String) :
    (nlp.blobSentiment text = none → detect_bias nlp text = ⟨"unknown", 0, []⟩) ∧
    (∀ p s : ℚ, nlp.blobSentiment text = some (p, s) →
      detect_bias nlp text =
        ⟨if 10 < totalBias text s then "high"
          else if 5 < totalBias text s then "medium"
          else "low",
         roundTo 1 (totalBias text s),
         [("emotional", biasCategoryScore emotionalWords text),
          ("loaded_words", biasCategoryScore loadedWords text),
          ("generalizations", biasCategoryScore generalizationWords text)]⟩) := by
  constructor
  · intro h
    simp [detect_bias, h]
  · intro p s h
    simp [detect_bias, h, totalBias, biasCategoryScore]

/-- Concrete external-model instantiation whose sentiment call returns
subjectivity 0.03 on every text; all other calls raise. -/
def nlpSubj3 : NLP :=
  ⟨fun _ => none, fun _ => none, fun _ => some (0, 3/100), fun _ => none⟩

/-- C7 counterexample: on the empty text with subjectivity 0.03, the sum of
the category scores plus subjectivity·5 is 0.15, but the reported
bias_score is round(0.15, 1) = 0.2; the claim's equation for the reported
total is false because the code rounds the score to one decimal. -/
theorem detect_bias_score_counterexample :
    (detect_bias nlpSubj3 "").bias_score = 1/5 ∧
    ¬ (detect_bias nlpSubj3 "").bias_score
        = ((((pySplit "".toLower).filter (fun w => w ∈ emotionalWords)).length
            + ((pySplit "".toLower).filter (fun w => w ∈ loadedWords)).length
            + ((pySplit "".toLower).filter (fun w => w ∈ generalizationWords)).length : ℕ) : ℚ)
          + (3/100) * 5 := by
  have h1 : (detect_bias nlpSubj3 "").bias_score = 1/5 := by with_unfolding_all rfl
  have h2 : ((((pySplit "".toLower).filter (fun w => w ∈ emotionalWords)).length
      + ((pySplit "".toLower).filter (fun w => w ∈ loadedWords)).length
      + ((pySplit "".toLower).filter (fun w => w ∈ generalizationWords)).length : ℕ) : ℚ)
      + (3/100) * 5 = 3/20 := by with_unfolding_all rfl
  refine ⟨h1, ?_⟩
  intro h
  rw [h1, h2] at h
  norm_num at h

/-- Witness for C7 (amended) at a concrete input: two emotional tokens, one
loaded token and two generalization tokens with subjectivity 0.03 give
total_bias 5.15, level "medium", and reported score 5.2. -/
theorem detect_bias_spec_witness :
    detect_bias nlpSubj3 "never always radical gone" =
      ⟨"medium", 26/5,
       [("emotional", 2), ("loaded_words", 1), ("generalizations", 2)]⟩ := by
  have h := (detect_bias_spec nlpSubj3 "never always radical gone").2 0 (3/100) rfl
  rw [h]
  with_unfolding_all rfl

/-- The weight each token contributes to the summed category scores of
`detect_bias`: 2 for the two tokens that appear in both the emotional and
the generalizations lists, 1 for any other listed token, 0 otherwise. -/
def biasTokenWeight (w : String) : Nat :=
  if w = "never" ∨ w = "always" then 2
  else if w ∈ emotionalWords ∨ w ∈ loadedWords ∨ w ∈ generalizationWords then 1
  else 0

/-- Per-token weight identity behind C10: membership indicators of the
three lists sum to `biasTokenWeight`. -/
theorem biasTokenWeight_eq (w : String) :
    ((if w ∈ emotionalWords then 1 else 0)
      + (if w ∈ loadedWords then 1 else 0)
      + (if w ∈ generalizationWords then 1 else 0) : ℕ)
      = biasTokenWeight w := by
  rcases eq_or_ne w "never" with rfl | h1
  · decide
  rcases eq_or_ne w "always" with rfl | h2
  · decide
  by_cases h3 : w ∈ emotionalWords
  · fin_cases h3 <;>
      first
        | (exact absurd rfl h1)
        | (exact absurd rfl h2)
        | decide
  by_cases h4 : w ∈ loadedWords
  · fin_cases h4 <;> simp_all [biasTokenWeight, emotionalWords, loadedWords, generalizationWords]
  by_cases h5 : w ∈ generalizationWords
  · fin_cases h5 <;>
      first
        | (exact absurd rfl h1)
        | (exact absurd rfl h2)
        | simp_all [biasTokenWeight, emotionalWords, loadedWords, generalizationWords]
  · simp [biasTokenWeight, h1, h2, h3, h4, h5]

/-- Filtering one more token changes the filtered length by the token's
membership indicator. -/
theorem filter_length_cons (cat : List String) (w : String) (ws : List String) :
    ((w :: ws).filter (fun x => x ∈ cat)).length
      = (ws.filter (fun x => x ∈ cat)).length + if w ∈ cat then 1 else 0 := by
  by_cases h : w ∈ cat <;> simp [List.filter_cons, h]

/-- Summed form of the weight identity over any token list. -/
theorem biasWeight_sum (ws : List String) :
    (ws.filter (fun w => w ∈ emotionalWords)).length
      + (ws.filter (fun w => w ∈ loadedWords)).length
      + (ws.filter (fun w => w ∈ generalizationWords)).length
      = (ws.map biasTokenWeight).sum := by
  induction ws with
  | nil => rfl
  | cons w ws ih =>
    have hw := biasTokenWeight_eq w
    rw [List.map_cons, List.sum_cons, filter_length_cons, filter_length_cons,
      filter_length_cons]
    omega

/-- C10: every token equal to "never" or "always" is counted by
`detect_bias` in both the 'emotional' and the 'generalizations' categories
(the two lists overlap exactly on these two words), so each such token
contributes 2 to the summed category scores inside total_bias. -/
theorem detect_bias_overlap_double_count (nlp : NLP) (text : String) (p s : ℚ)
    (h : nlp.blobSentiment text = some (p, s)) :
    (detect_bias nlp text).bias_factors =
      [("emotional", biasCategoryScore emotionalWords text),
       ("loaded_words", biasCategoryScore loadedWords text),
       ("generalizations", biasCategoryScore generalizationWords text)] ∧
    ("never" ∈ emotionalWords ∧ "never" ∈ generalizationWords ∧
     "always" ∈ emotionalWords ∧ "always" ∈ generalizationWords) ∧
    biasCategoryScore emotionalWords text + biasCategoryScore loadedWords text
      + biasCategoryScore generalizationWords text
      = ((pySplit text.toLower).map biasTokenWeight).sum := by
  have hd := (detect_bias_spec nlp text).2 p s h
  refine ⟨by rw [hd], by decide, ?_⟩
  simpa [biasCategoryScore] using biasWeight_sum (pySplit text.toLower)

/-- Witness for C10 at a concrete input: in "never always gone" the tokens
"never" and "always" are counted in both overlapping categories, giving
factors 2/0/2 and a weighted token sum of 4. -/
theorem detect_bias_overlap_witness :
    (detect_bias nlpSubj3 "never always gone").bias_factors
      = [("emotional", 2), ("loaded_words", 0), ("generalizations", 2)] ∧
    ((pySplit ("never always gone").toLower).map biasTokenWeight).sum = 4 := by
  have h := detect_bias_overlap_double_count nlpSubj3 "never always gone" 0 (3/100) rfl
  constructor
  · rw [h.1]
    with_unfolding_all rfl
  · rw [← h.2.2]
    with_unfolding_all rfl

/-! ### Claim C4 -/

/-- The non-degenerate outcome of the readability scorer as a function of
the word count, sentence count and total syllable count: the Flesch value
clamped to [0,100], the level thresholds >80 / >60 on the clamped value,
and the score and average sentence length rounded to one decimal place. -/
def fleschOutcome (wordCount sentenceCount syllables : ℕ) : Readability :=
  let words_per_sentence : ℚ := (wordCount : ℚ) / (sentenceCount : ℚ)
  let syllables_per_word : ℚ := (syllables : ℚ) / (wordCount : ℚ)
  let clamped : ℚ :=
    max 0 (min 100 (206835/1000 - 1015/1000 * words_per_sentence - 846/10 * syllables_per_word))
  ⟨roundTo 1 clamped,
   if 80 < clamped then "easy" else if 60 < clamped then "standard" else "advanced",
   roundTo 1 words_per_sentence⟩

/-- The score field of `fleschOutcome` stays in [0, 100]: the clamp puts
the raw value there and one-decimal rounding cannot leave the range. -/
theorem fleschOutcome_score_bounds (w s y : ℕ) :
    0 ≤ (fleschOutcome w s y).score ∧ (fleschOutcome w s y).score ≤ 100 := by
  unfold fleschOutcome
  have h1 : (0 : ℚ) ≤ max 0 (min 100 (206835/1000 - 1015/1000 * ((w : ℚ) / (s : ℚ))
      - 846/10 * ((y : ℚ) / (w : ℚ)))) := le_max_left _ _
  have h2 : max 0 (min 100 (206835/1000 - 1015/1000 * ((w : ℚ) / (s : ℚ))
      - 846/10 * ((y : ℚ) / (w : ℚ)))) ≤ 100 := by
    apply max_le
    · norm_num
    · exact min_le_left _ _
  have hb := @roundTo_bounds 0 100 1 _ (by exact_mod_cast h1) (by exact_mod_cast h2)
  constructor
  · exact_mod_cast hb.1
  · exact_mod_cast hb.2

/-- Unfolding of the readability scorer when the tokenizer raises. -/
theorem calc_read_none (nlp : NLP) (text : String)
    (h : nlp.sentTokenize text = none) :
    calculate_readability_score nlp text = defaultReadability := by
  unfold calculate_readability_score
  rw [h]
  by_cases h0 : text = "" ∨ text.trim.length < 10
  · rw [if_pos h0]
  · rw [if_neg h0]

/-- Unfolding of the readability scorer when the tokenizer returns a
sentence list: the nested guards in source order, then `fleschOutcome`. -/
theorem calc_read_some (nlp : NLP) (text : String) (sentences : List String)
    (h : nlp.sentTokenize text = some sentences) :
    calculate_readability_score nlp text =
      if text = "" ∨ text.trim.length < 10 then defaultReadability
      else if sentences = [] then defaultReadability
      else if (pySplit text).filter (fun w => w.trim ≠ "") = [] then defaultReadability
      else
        fleschOutcome
          (((pySplit text).filter (fun w => w.trim ≠ "")).length)
          sentences.length
          ((((pySplit text).filter (fun w => w.trim ≠ "")).map
              (fun w => count_syllables nlp w)).sum) := by
  unfold calculate_readability_score fleschOutcome
  rw [h]

/-- Degenerate branch of the readability scorer: empty text, trimmed
length below 10, tokenizer exception, zero sentences or zero words all
return the fixed default. -/
theorem readability_degenerate (nlp : NLP) (text : String)
    (h : text = "" ∨ text.trim.length < 10 ∨ nlp.sentTokenize text = none ∨
      nlp.sentTokenize text = some [] ∨
      (pySplit text).filter (fun w => w.trim ≠ "") = []) :
    calculate_readability_score nlp text = defaultReadability := by
  rcases h with h | h | h | h | h
  · unfold calculate_readability_score
    rw [if_pos (Or.inl h)]
  · unfold calculate_readability_score
    rw [if_pos (Or.inr h)]
  · exact calc_read_none nlp text h
  · rw [calc_read_some nlp text [] h]
    simp
  · cases htok : nlp.sentTokenize text with
    | none => exact calc_read_none nlp text htok
    | some sentences =>
      rw [calc_read_some nlp text sentences htok, h]
      simp

/-- Non-degenerate branch of the readability scorer: the outcome is
exactly `fleschOutcome` of the word, sentence and syllable counts. -/
theorem readability_main (nlp : NLP) (text : String) (sentences : List String)
    (htok : nlp.sentTokenize text = some sentences)
    (h0 : ¬ (text = "" ∨ text.trim.length < 10))
    (hs : sentences ≠ [])
    (hw : (pySplit text).filter (fun w => w.trim ≠ "") ≠ []) :
    calculate_readability_score nlp text =
      fleschOutcome
        (((pySplit text).filter (fun w => w.trim ≠ "")).length)
        sentences.length
        ((((pySplit text).filter (fun w => w.trim ≠ "")).map
            (fun w => count_syllables nlp w)).sum) := by
  rw [calc_read_some nlp text sentences htok, if_neg h0, if_neg hs, if_neg hw]

/-- C4 (amended): the readability score is always inside [0, 100]; every
degenerate input (empty text, trimmed length < 10, tokenizer failure, zero
sentences, zero words) returns exactly {score: 60.0, reading_level:
"standard", avg_sentence_length: 20.0}; otherwise the result is the Flesch
formula 206.835 - 1.015*(words/sentences) - 84.6*(syllables/words) clamped
to [0, 100] and then rounded to one decimal place, with reading_level
"easy" above 80, "standard" above 60, else "advanced" (thresholds applied
to the clamped, unrounded value). -/
theorem calculate_readability_score_spec (nlp : NLP) (text : String) :
    (0 ≤ (calculate_readability_score nlp text).score ∧
     (calculate_readability_score nlp text).score ≤ 100) ∧
    ((text = "" ∨ text.trim.length < 10 ∨ nlp.sentTokenize text = none ∨
        nlp.sentTokenize text = some [] ∨
        (pySplit text).filter (fun w => w.trim ≠ "") = []) →
      calculate_readability_score nlp text = defaultReadability) ∧
    (∀ sentences, nlp.sentTokenize text = some sentences →
      ¬ (text = "" ∨ text.trim.length < 10) → sentences ≠ [] →
      (pySplit text).filter (fun w => w.trim ≠ "") ≠ [] →
      calculate_readability_score nlp text =
        fleschOutcome
          (((pySplit text).filter (fun w => w.trim ≠ "")).length)
          sentences.length
          ((((pySplit text).filter (fun w => w.trim ≠ "")).map
              (fun w => count_syllables nlp w)).sum)) := by
  refine ⟨?_, readability_degenerate nlp text, ?_⟩
  · by_cases h0 : text = "" ∨ text.trim.length < 10
    · rw [readability_degenerate nlp text
        (h0.elim Or.inl (fun h => Or.inr (Or.inl h)))]
      constructor <;> norm_num [defaultReadability]
    · cases htok : nlp.sentTokenize text with
      | none =>
        rw [readability_degenerate nlp text (Or.inr (Or.inr (Or.inl htok)))]
        constructor <;> norm_num [defaultReadability]
      | some sentences =>
        by_cases hs : sentences = []
        · rw [readability_degenerate nlp text
            (Or.inr (Or.inr (Or.inr (Or.inl (hs ▸ htok)))))]
          constructor <;> norm_num [defaultReadability]
        · by_cases hw : (pySplit text).filter (fun w => w.trim ≠ "") = []
          · rw [readability_degenerate nlp text
              (Or.inr (Or.inr (Or.inr (Or.inr hw))))]
            constructor <;> norm_num [defaultReadability]
          · rw [readability_main nlp text sentences htok h0 hs hw]
            exact fleschOutcome_score_bounds _ _ _
  · intro sentences htok h0 hs hw
    exact readability_main nlp text sentences htok h0 hs hw

/-- Concrete external-model instantiation for readability evaluation: the
whole text is one sentence, each word is its own TextBlob token (so
syllables are counted from the word's hyphen pieces); sentiment and noun
phrases raise. -/
def nlpRead : NLP :=
  ⟨fun t => some [t], fun w => some [w], fun _ => none, fun _ => none⟩

/-- C4 counterexample to the exact-formula clause: on "ab-cd ef-gh ij"
(3 words, 1 sentence, 5 syllables) the clamped Flesch value is
206.835 - 1.015*3 - 84.6*(5/3) = 62.79, but the returned score is
round(62.79, 1) = 62.8, so the returned score is not the clamped formula
value itself. -/
theorem readability_rounding_counterexample :
    (calculate_readability_score nlpRead "ab-cd ef-gh ij").score = 314/5 ∧
    ¬ (calculate_readability_score nlpRead "ab-cd ef-gh ij").score
        = max 0 (min 100 (206835/1000 - 1015/1000 * ((3 : ℚ) / 1)
            - 846/10 * ((5 : ℚ) / 3))) := by
  have h1 : (calculate_readability_score nlpRead "ab-cd ef-gh ij").score = 314/5 := by
    with_unfolding_all rfl
  have h2 : max 0 (min 100 (206835/1000 - 1015/1000 * ((3 : ℚ) / 1)
      - 846/10 * ((5 : ℚ) / 3))) = 6279/100 := by
    norm_num [max_def, min_def]
  refine ⟨h1, ?_⟩
  rw [h1, h2]
  norm_num

/-- Witness for C4 (amended) at concrete inputs: the empty text, a
whitespace-only text and a 5-character text give the exact default, and the
3-word one-sentence text with 5 syllables gives `fleschOutcome 3 1 5`
(score 62.8, level "standard"). -/
theorem calculate_readability_score_spec_witness :
    calculate_readability_score nlpRead "" = defaultReadability ∧
    calculate_readability_score nlpRead "   " = defaultReadability ∧
    calculate_readability_score nlpRead "short" = defaultReadability ∧
    calculate_readability_score nlpRead "ab-cd ef-gh ij" = fleschOutcome 3 1 5 ∧
    fleschOutcome 3 1 5 = ⟨314/5, "standard", 3⟩ := by
  have hA := (calculate_readability_score_spec nlpRead "").2.1 (Or.inl rfl)
  have hB := (calculate_readability_score_spec nlpRead "   ").2.1
    (Or.inr (Or.inl (by with_unfolding_all decide)))
  have hC := (calculate_readability_score_spec nlpRead "short").2.1
    (Or.inr (Or.inl (by with_unfolding_all decide)))
  have hD := (calculate_readability_score_spec nlpRead "ab-cd ef-gh ij").2.2
    ["ab-cd ef-gh ij"] rfl
    (by with_unfolding_all decide)
    (by decide)
    (by with_unfolding_all decide)
  refine ⟨hA, hB, hC, ?_, ?_⟩
  · rw [hD]
    with_unfolding_all rfl
  · with_unfolding_all rfl

/-! ### Claim C8 -/

/-- Once the quote list is full, the rest of the scan leaves it unchanged. -/
theorem quotes_fold_full (max : Nat) (sentences : List String) (acc : List String)
    (h : max ≤ acc.length) :
    sentences.foldl
      (fun quotes sentence =>
        if hasQuoteChar sentence ∧ quotes.length < max then
          quotes ++ [sentence.trim]
        else quotes)
      acc = acc := by
  induction sentences with
  | nil => rfl
  | cons s ss ih =>
    rw [List.foldl_cons,
      if_neg (fun hc => absurd hc.2 (Nat.not_lt.mpr h))]
    exact ih

/-- The quote scan continued from a partial accumulator appends the next
trimmed quote-bearing sentences up to the remaining capacity. -/
theorem quotes_fold (max : Nat) (sentences : List String) :
    ∀ acc : List String, acc.length ≤ max →
      sentences.foldl
        (fun quotes sentence =>
          if hasQuoteChar sentence ∧ quotes.length < max then
            quotes ++ [sentence.trim]
          else quotes)
        acc
      = acc ++ ((sentences.filter (fun s => hasQuoteChar s)).take
          (max - acc.length)).map String.trim := by
  induction sentences with
  | nil =>
    intro acc h
    simp
  | cons s ss ih =>
    intro acc h
    rw [List.foldl_cons, List.filter_cons]
    by_cases hq : hasQuoteChar s
    · rw [if_pos hq]
      by_cases hlt : acc.length < max
      · rw [if_pos ⟨hq, hlt⟩, ih (acc ++ [s.trim]) (by simpa using hlt)]
        have hsub : max - acc.length = (max - (acc ++ [s.trim]).length) + 1 := by
          simp only [List.length_append, List.length_cons, List.length_nil]
          omega
        rw [hsub, List.take_succ_cons, List.map_cons]
        simp
      · have hfull : max ≤ acc.length := Nat.not_lt.mp hlt
        have hzero : max - acc.length = 0 := Nat.sub_eq_zero_of_le hfull
        rw [if_neg (fun hc => absurd hc.2 hlt), hzero, List.take_zero,
          List.map_nil, List.append_nil]
        exact quotes_fold_full max ss acc hfull
    · rw [if_neg hq, if_neg (fun hc => hq hc.1)]
      exact ih acc h

/-- C8 (amended): `extract_key_quotes` returns exactly the trimmed
sentences that contain the straight ASCII double-quote character (the
source tests that same character three times; the curly variants are not
matched), in original sentence order, capped at `max_quotes`; a tokenizer
exception returns the empty list. -/
theorem extract_key_quotes_spec (nlp : NLP) (text : String) (max_quotes : Nat) :
    (nlp.sentTokenize text = none → extract_key_quotes nlp text max_quotes = []) ∧
    (∀ sentences, nlp.sentTokenize text = some sentences →
      extract_key_quotes nlp text max_quotes
        = ((sentences.filter (fun s => hasQuoteChar s)).take max_quotes).map
            String.trim) := by
  constructor
  · intro h
    simp [extract_key_quotes, h]
  · intro sentences h
    unfold extract_key_quotes
    rw [h]
    simpa using quotes_fold max_quotes sentences [] (by simp)

/-- The quotation-mark test as claim C8 describes it: the straight double
quote or one of the visually-similar curly variants. -/
def specHasQuoteChar (s : String) : Bool :=
  s.contains '"' || s.contains '“' || s.contains '”'

/-- Concrete external-model instantiation for the C8 counterexample: two
sentences, the first quoted with curly quotes only, the second with
straight quotes. -/
def nlpCurly : NLP :=
  ⟨fun _ => some ["“Stay away,” she warned.", "He demanded \"proof\" first."],
   fun _ => none, fun _ => none, fun _ => none⟩

/-- C8 counterexample to the curly-variant clause: the sentence quoted with
curly quotes only is not extracted — the code tests the straight ASCII
double quote three times and never a curly variant — so the result differs
from the claim's straight-or-curly reading. -/
theorem extract_key_quotes_counterexample :
    extract_key_quotes nlpCurly "t" 2 = ["He demanded \"proof\" first."] ∧
    (((["“Stay away,” she warned.", "He demanded \"proof\" first."].filter
        (fun s => specHasQuoteChar s)).take 2).map String.trim)
      = ["“Stay away,” she warned.", "He demanded \"proof\" first."] ∧
    extract_key_quotes nlpCurly "t" 2
      ≠ (((["“Stay away,” she warned.", "He demanded \"proof\" first."].filter
          (fun s => specHasQuoteChar s)).take 2).map String.trim) := by
  have h1 : extract_key_quotes nlpCurly "t" 2 = ["He demanded \"proof\" first."] := by
    with_unfolding_all rfl
  have h2 : (((["“Stay away,” she warned.", "He demanded \"proof\" first."].filter
      (fun s => specHasQuoteChar s)).take 2).map String.trim)
      = ["“Stay away,” she warned.", "He demanded \"proof\" first."] := by
    with_unfolding_all rfl
  refine ⟨h1, h2, ?_⟩
  rw [h1, h2]
  decide

/-- Concrete external-model instantiation for the C8 witness: four
sentences of which the first, third and fourth carry straight quotes. -/
def nlpQuotes : NLP :=
  ⟨fun _ => some ["  \"One.\" ", "Two plain.", "\"Three.\"", "\"Four.\""],
   fun _ => none, fun _ => none, fun _ => none⟩

/-- Witness for C8 (amended) at a concrete input: of four sentences the
first and third carry straight quotes within the cap of 2, so the result is
those two sentences, trimmed, in order; the fourth quoted sentence is cut
off by the cap. -/
theorem extract_key_quotes_spec_witness :
    extract_key_quotes nlpQuotes "t" 2
      = (((["  \"One.\" ", "Two plain.", "\"Three.\"", "\"Four.\""].filter
          (fun s => hasQuoteChar s)).take 2).map String.trim) ∧
    extract_key_quotes nlpQuotes "t" 2 = ["\"One.\"", "\"Three.\""] := by
  have h := (extract_key_quotes_spec nlpQuotes "t" 2).2
    ["  \"One.\" ", "Two plain.", "\"Three.\"", "\"Four.\""] rfl
  exact ⟨h, by with_unfolding_all rfl⟩

/-! ### Decomposition of the fetch loop -/

/-- The pooled-text fold started from any string prefixes that string to
the fold started from the empty string. -/
theorem allText_foldl_shift (nlp : NLP) (category now : String)
    (t : List RawArticle) :
    ∀ s : String,
      t.foldl
        (fun acc a =>
          match (articleStep nlp category now a).1 with
          | some x => acc ++ " " ++ x
          | none => acc)
        s
      = s ++ t.foldl
          (fun acc a =>
            match (articleStep nlp category now a).1 with
            | some x => acc ++ " " ++ x
            | none => acc)
          "" := by
  induction t with
  | nil =>
    intro s
    simp
  | cons a t ih =>
    intro s
    simp only [List.foldl_cons]
    cases h : (articleStep nlp category now a).1 with
    | none =>
      simp only [h]
      exact ih s
    | some v =>
      simp only [h]
      rw [ih (s ++ " " ++ v), ih ("" ++ " " ++ v)]
      simp only [String.empty_append, String.append_assoc]

/-- One step of the pooled-text accumulation. -/
theorem allTextOf_cons (nlp : NLP) (category now : String) (a : RawArticle)
    (t : List RawArticle) :
    allTextOf nlp category now (a :: t)
      = (match (articleStep nlp category now a).1 with
         | some x => " " ++ x
         | none => "") ++ allTextOf nlp category now t := by
  unfold allTextOf
  simp only [List.foldl_cons]
  cases h : (articleStep nlp category now a).1 with
  | none =>
    simp [h]
  | some v =>
    simp only [h]
    rw [allText_foldl_shift]
    simp only [String.empty_append, String.append_assoc]

/-- The accumulator pair of the `fetch_news` loop decomposes into the
pooled text and the item list. -/
theorem fetch_loop_acc (nlp : NLP) (category now : String)
    (raws : List RawArticle) :
    ∀ p : String × List NewsItem,
      raws.foldl (loopStep nlp category now) p
        = (p.1 ++ allTextOf nlp category now raws,
           p.2 ++ newsItemsOf nlp category now raws) := by
  induction raws with
  | nil =>
    intro p
    simp [allTextOf, newsItemsOf]
  | cons a t ih =>
    intro p
    rw [List.foldl_cons, ih, allTextOf_cons]
    unfold loopStep newsItemsOf
    simp only [List.filterMap_cons]
    cases h1 : (articleStep nlp category now a).1 <;>
      cases h2 : (articleStep nlp category now a).2 <;>
        simp [h1, h2, Prod.mk.injEq, String.append_assoc, String.empty_append]

/-- `fetch_news` written in terms of `allTextOf` and `newsItemsOf`. -/
theorem fetch_news_eq (nlp : NLP) (category now : String) (data : UpstreamData) :
    fetch_news nlp category now data =
      if newsItemsOf nlp category now data.articles = [] then
        ⟨[], 0, category, []⟩
      else
        ⟨newsItemsOf nlp category now data.articles,
         data.totalResults.getD (newsItemsOf nlp category now data.articles).length,
         category,
         (extract_keywords nlp (allTextOf nlp category now data.articles) 10).map
           (fun topic =>
             ⟨topic,
              pyCount (allTextOf nlp category now data.articles).toLower
                topic.toLower⟩)⟩ := by
  unfold fetch_news
  rw [fetch_loop_acc nlp category now data.articles ("", [])]
  simp

/-- The article list of the response is always the filtered-and-processed
item list (also when it is empty). -/
theorem fetch_articles_eq (nlp : NLP) (category now : String)
    (data : UpstreamData) :
    (fetch_news nlp category now data).articles
      = newsItemsOf nlp category now data.articles := by
  rw [fetch_news_eq]
  by_cases h : newsItemsOf nlp category now data.articles = []
  · rw [if_pos h, h]
  · rw [if_neg h]

/-! ### Claim C9 -/

/-- C9: whenever zero articles survive the per-article pass, `fetch_news`
returns the fixed empty response — articles [], total forced to 0 even if
the upstream reported a nonzero total, the requested category, and empty
trending topics — and the pooled-text trending analysis is bypassed (the
returned topics are the literal empty list, not a computed one).  The
endpoint returns this value as a normal (HTTP 200) response. -/
theorem fetch_news_empty_response (nlp : NLP) (category now : String)
    (data : UpstreamData)
    (h : newsItemsOf nlp category now data.articles = []) :
    fetch_news nlp category now data = ⟨[], 0, category, []⟩ := by
  rw [fetch_news_eq, if_pos h]

/-- A raw article with no `url` key; its title and description are long
enough to pass the length filter. -/
def artNoUrl : RawArticle :=
  ⟨.str "A perfectly long title", .absent, .str "description here",
   .dict (some "S"), .str "2024-01-01T00:00:00Z", none⟩

/-- Witness for C9 at concrete inputs: an empty upstream article list, and
a list whose only article is dropped for its missing url, both with the
upstream total reported as 57 and category "all", give exactly the empty
response with total 0. -/
theorem fetch_news_empty_response_witness :
    fetch_news nlpRead "all" "2024-01-01T00:00:00" ⟨[], some 57⟩
      = ⟨[], 0, "all", []⟩ ∧
    fetch_news nlpRead "all" "2024-01-01T00:00:00" ⟨[artNoUrl], some 57⟩
      = ⟨[], 0, "all", []⟩ := by
  constructor
  · exact fetch_news_empty_response nlpRead "all" "2024-01-01T00:00:00"
      ⟨[], some 57⟩ rfl
  · exact fetch_news_empty_response nlpRead "all" "2024-01-01T00:00:00"
      ⟨[artNoUrl], some 57⟩ (by with_unfolding_all rfl)

/-! ### Claim C1 -/

/-- C1: per raw article, `fetch_news` (i) returns exactly the items the
per-article pass produced, (ii) produces no item when the title or the url
is missing or empty, (iii) produces no item when the combined trimmed
title-space-description text is shorter than 10 characters (so a 9-character
combined text is dropped), and (iv) produces an item — present in the
response — when the fields are present, the combined text has at least 10
characters (exactly 10 suffices) and the remaining fields are well-formed,
so that no per-article exception skips it. -/
theorem fetch_news_filter (nlp : NLP) (category now : String)
    (data : UpstreamData) (a : RawArticle) :
    ((fetch_news nlp category now data).articles
        = newsItemsOf nlp category now data.articles) ∧
    ((a.title.truthy = false ∨ a.url.truthy = false) →
      (articleStep nlp category now a).2 = none) ∧
    ((fullTextOf a).length < 10 → (articleStep nlp category now a).2 = none) ∧
    (a.title.truthy = true → a.url.truthy = true → a.description ≠ .null →
      10 ≤ (fullTextOf a).length → a.source ≠ .nonDict → a.publishedAt ≠ .null →
      ∃ item, (articleStep nlp category now a).2 = some item ∧
        (a ∈ data.articles →
          item ∈ (fetch_news nlp category now data).articles)) := by
  refine ⟨fetch_articles_eq nlp category now data, ?_, ?_, ?_⟩
  · intro h
    have hc : ¬ a.title.truthy = true ∨ ¬ a.url.truthy = true := by
      rcases h with h | h
      · exact Or.inl (by simp [h])
      · exact Or.inr (by simp [h])
    unfold articleStep
    rw [if_pos hc]
  · intro h
    unfold articleStep
    by_cases h1 : ¬ a.title.truthy = true ∨ ¬ a.url.truthy = true
    · rw [if_pos h1]
    · rw [if_neg h1]
      by_cases h2 : a.description = .null
      · rw [if_pos h2]
      · rw [if_neg h2]
        unfold fullTextOf at h
        rw [if_pos h]
  · intro h1 h2 h3 h4 h5 h6
    have hstep : ∃ item, (articleStep nlp category now a).2 = some item := by
      unfold articleStep
      rw [if_neg (by simp [h1, h2]), if_neg h3]
      unfold fullTextOf at h4
      rw [if_neg (Nat.not_lt.mpr h4), if_neg (by simp [h5, h6])]
      exact ⟨_, rfl⟩
    obtain ⟨item, hitem⟩ := hstep
    refine ⟨item, hitem, fun ha => ?_⟩
    rw [fetch_articles_eq]
    exact List.mem_filterMap.mpr ⟨a, ha, hitem⟩

/-- A raw article whose combined text "Abcd efghi" has exactly 10
characters. -/
def artTen : RawArticle :=
  ⟨.str "Abcd", .str "https://n.example/1", .str "efghi",
   .dict (some "S"), .str "2024-01-01T00:00:00Z", none⟩

/-- A raw article whose combined text "Abcd efgh" has 9 characters. -/
def artNine : RawArticle :=
  ⟨.str "Abcd", .str "https://n.example/2", .str "efgh",
   .dict (some "S"), .str "2024-01-01T00:00:00Z", none⟩

/-- Witness for C1 at concrete inputs: the 10-character-combined-text
article is processed into an item that appears in the response, the
9-character one is dropped by the length filter, and the article without a
url is dropped by the field filter. -/
theorem fetch_news_filter_witness :
    (∃ item, (articleStep nlpRead "general" "T" artTen).2 = some item ∧
      item ∈ (fetch_news nlpRead "general" "T" ⟨[artTen], some 3⟩).articles) ∧
    (articleStep nlpRead "general" "T" artNine).2 = none ∧
    (articleStep nlpRead "general" "T" artNoUrl).2 = none ∧
    (fullTextOf artTen).length = 10 ∧
    (fullTextOf artNine).length = 9 := by
  have hTen := (fetch_news_filter nlpRead "general" "T" ⟨[artTen], some 3⟩ artTen).2.2.2
    rfl rfl (by decide) (by with_unfolding_all decide) (by decide) (by decide)
  have hNine := (fetch_news_filter nlpRead "general" "T" ⟨[], none⟩ artNine).2.2.1
    (by with_unfolding_all decide)
  have hNoUrl := (fetch_news_filter nlpRead "general" "T" ⟨[], none⟩ artNoUrl).2.1
    (Or.inr rfl)
  obtain ⟨item, hitem, hmem⟩ := hTen
  refine ⟨⟨item, hitem, hmem (by simp)⟩, hNine, hNoUrl, ?_, ?_⟩
  · with_unfolding_all rfl
  · with_unfolding_all rfl

/-! ### Claim C2 -/

/-- C2: every topic in the trending list of a response is reported with a
count equal to the number of non-overlapping case-insensitive literal
occurrences of the topic in the pooled text (Python's
`all_text.lower().count(topic.lower())`). -/
theorem trending_count_eq (nlp : NLP) (category now : String)
    (data : UpstreamData) (tc : TopicCount)
    (h : tc ∈ (fetch_news nlp category now data).trending_topics) :
    tc.count
      = pyCount (allTextOf nlp category now data.articles).toLower
          tc.topic.toLower := by
  rw [fetch_news_eq] at h
  by_cases hempty : newsItemsOf nlp category now data.articles = []
  · rw [if_pos hempty] at h
    simp at h
  · rw [if_neg hempty] at h
    simp only [List.mem_map] at h
    obtain ⟨topic, _, rfl⟩ := h
    rfl

/-- Concrete external-model instantiation for the C2 witness: the
noun-phrase extractor always yields the single phrase "apple"; the
tokenizer and word tokenizer are identities; sentiment is neutral. -/
def nlpTrend : NLP :=
  ⟨fun t => some [t], fun w => some [w], fun _ => some (0, 0),
   fun _ => some ["apple"]⟩

/-- A raw article whose combined text is "Apple apple APPLE pie". -/
def artApple : RawArticle :=
  ⟨.str "Apple apple", .str "https://n.example/a", .str "APPLE pie",
   .dict (some "S"), .str "2024-01-01T00:00:00Z", none⟩

/-- Witness for C2 at a concrete input: with pooled text
" Apple apple APPLE pie" the topic "apple" is reported with count 3, the
case-insensitive occurrence count of the claim's example. -/
theorem trending_count_eq_witness :
    (fetch_news nlpTrend "general" "T" ⟨[artApple], some 1⟩).trending_topics
      = [⟨"apple", 3⟩] ∧
    (3 : Nat)
      = pyCount (allTextOf nlpTrend "general" "T" [artApple]).toLower
          ("apple").toLower := by
  have hlist : (fetch_news nlpTrend "general" "T" ⟨[artApple], some 1⟩).trending_topics
      = [⟨"apple", 3⟩] := by
    with_unfolding_all rfl
  refine ⟨hlist, ?_⟩
  have h := trending_count_eq nlpTrend "general" "T" ⟨[artApple], some 1⟩
    ⟨"apple", 3⟩ (by rw [hlist]; simp)
  exact h

/-! ### Claim C3 -/

/-- The per-article step either pools no text or pools exactly the
combined text of the article. -/
theorem articleStep_text_cases (nlp : NLP) (category now : String)
    (a : RawArticle) :
    (articleStep nlp category now a).1 = none ∨
    (articleStep nlp category now a).1 = some (fullTextOf a) := by
  unfold articleStep fullTextOf
  by_cases h1 : ¬ a.title.truthy = true ∨ ¬ a.url.truthy = true
  · rw [if_pos h1]
    exact Or.inl rfl
  · rw [if_neg h1]
    by_cases h2 : a.description = .null
    · rw [if_pos h2]
      exact Or.inl rfl
    · rw [if_neg h2]
      by_cases h3 : (((a.title.getD "").trim ++ " " ++ (a.description.getD "").trim).trim).length < 10
      · rw [if_pos h3]
        exact Or.inl rfl
      · rw [if_neg h3]
        by_cases h4 : a.source = SrcField.nonDict ∨ a.publishedAt = StrField.null
        · rw [if_pos h4]
          exact Or.inr rfl
        · rw [if_neg h4]
          exact Or.inr rfl

/-- The pooled text as the specification describes it: the concatenation
(in the same " "-prefixed format the code uses) of the combined texts of
exactly the articles that are returned in the response. -/
def specPooledText (nlp : NLP) (category now : String)
    (raws : List RawArticle) : String :=
  (raws.filter (fun a => ((articleStep nlp category now a).2).isSome)).foldl
    (fun acc a => acc ++ " " ++ fullTextOf a) ""

/-- The spec-style concatenation started from any string prefixes that
string to the concatenation started from the empty string. -/
theorem spec_foldl_shift (l : List RawArticle) :
    ∀ s : String,
      l.foldl (fun acc a => acc ++ " " ++ fullTextOf a) s
        = s ++ l.foldl (fun acc a => acc ++ " " ++ fullTextOf a) "" := by
  induction l with
  | nil =>
    intro s
    simp
  | cons a t ih =>
    intro s
    simp only [List.foldl_cons]
    rw [ih (s ++ " " ++ fullTextOf a), ih ("" ++ " " ++ fullTextOf a)]
    simp only [String.empty_append, String.append_assoc]

/-- C3 (amended): the pooled text over which trending topics are computed
is the concatenation of the combined texts of exactly the articles that
pass the field-presence and length filters — a superset of the articles in
the response, because an article can still be skipped by a later
processing exception after its text has been pooled. -/
theorem allTextOf_eq_filter_passed (nlp : NLP) (category now : String)
    (raws : List RawArticle) :
    allTextOf nlp category now raws
      = (raws.filter (fun a => ((articleStep nlp category now a).1).isSome)).foldl
          (fun acc a => acc ++ " " ++ fullTextOf a) "" := by
  induction raws with
  | nil => rfl
  | cons a t ih =>
    rw [allTextOf_cons, List.filter_cons]
    rcases articleStep_text_cases nlp category now a with h | h
    · have hcond : ((articleStep nlp category now a).1).isSome = false := by
        rw [h]
        rfl
      rw [if_neg (by simp [hcond]), h]
      simpa [String.empty_append] using ih
    · have hcond : ((articleStep nlp category now a).1).isSome = true := by
        rw [h]
        rfl
      rw [if_pos hcond, h, List.foldl_cons, spec_foldl_shift, ih]
      simp only [String.empty_append, String.append_assoc]

/-- A raw article that survives every check. -/
def artGood : RawArticle :=
  ⟨.str "Good headline here", .str "https://n.example/g", .absent,
   .dict (some "S"), .str "2024-01-01T00:00:00Z", none⟩

/-- A raw article that passes the field and length filters but whose
`source` field is a non-dict JSON value, so building its `NewsItem` raises
and the article is skipped after its text was pooled. -/
def artBadSource : RawArticle :=
  ⟨.str "Bad source article", .str "https://n.example/b", .absent,
   .nonDict, .str "2024-01-01T00:00:00Z", none⟩

/-- C3 counterexample: with one good article and one article skipped by a
processing exception after pooling, the pooled text the code uses contains
the skipped article's text, while only one article is returned — so the
pooled text is not the concatenation over the returned articles. -/
theorem pooled_text_counterexample :
    allTextOf nlpRead "general" "T" [artGood, artBadSource]
      = " Good headline here Bad source article" ∧
    specPooledText nlpRead "general" "T" [artGood, artBadSource]
      = " Good headline here" ∧
    (newsItemsOf nlpRead "general" "T" [artGood, artBadSource]).length = 1 ∧
    allTextOf nlpRead "general" "T" [artGood, artBadSource]
      ≠ specPooledText nlpRead "general" "T" [artGood, artBadSource] := by
  have h1 : allTextOf nlpRead "general" "T" [artGood, artBadSource]
      = " Good headline here Bad source article" := by
    with_unfolding_all rfl
  have h2 : specPooledText nlpRead "general" "T" [artGood, artBadSource]
      = " Good headline here" := by
    with_unfolding_all rfl
  refine ⟨h1, h2, by with_unfolding_all rfl, ?_⟩
  rw [h1, h2]
  decide

/-! ### Claim C5 -/

/-- Concrete external-model instantiation exhibiting the summarizer's
ordering slip: the tokenizer yields a duplicated sentence,
["A.", "B.", "A.", "C."]. -/
def nlpDup : NLP :=
  ⟨fun _ => some ["A.", "B.", "A.", "C."], fun _ => none, fun _ => none,
   fun _ => none⟩

/-- C5: the identity half holds — with at most `max_sentences` sentences
the summarizer returns the text unchanged.  The order half is violated by
the code: on the duplicated sentence list ["A.", "B.", "A.", "C."] with
`max_sentences` 3 the top-scored sentences are the two copies of "A." and
"B.", and the final re-sort keys every copy by `sentences.index`, the index
of its FIRST occurrence, so the output is "A. A. B." — whose sentence
sequence is not a subsequence of the document — instead of the document
order "A. B. A.".  This contradicts the code's own comment
"Select top sentences while maintaining order" (main.py:308) and §4.7 of
the specification, so it is recorded as a code bug. -/
theorem generate_ai_summary_bug :
    (∀ (nlp : NLP) (text : String) (max_sentences : Nat)
        (sentences : List String),
      nlp.sentTokenize text = some sentences →
      sentences.length ≤ max_sentences →
      generate_ai_summary nlp text max_sentences = text) ∧
    (generate_ai_summary nlpDup "A. B. A. C." 3 = "A. A. B." ∧
     ¬ List.Sublist ((summarySelect ["A.", "B.", "A.", "C."] 3).map Prod.snd)
        ["A.", "B.", "A.", "C."]) := by
  refine ⟨?_, ?_, ?_⟩
  · intro nlp text max_sentences sentences htok hlen
    unfold generate_ai_summary
    simp only [htok]
    rw [if_pos hlen]
  · with_unfolding_all rfl
  · have hsel : (summarySelect ["A.", "B.", "A.", "C."] 3).map Prod.snd
        = ["A.", "A.", "B."] := by
      with_unfolding_all rfl
    rw [hsel]
    decide

/-- Witness for C5's identity half at the claim's own example:
summarize("One sentence.", 3) returns "One sentence." unchanged. -/
theorem generate_ai_summary_bug_witness :
    generate_ai_summary nlpRead "One sentence." 3 = "One sentence." :=
  generate_ai_summary_bug.1 nlpRead "One sentence." 3 ["One sentence."]
    rfl (by decide)
